import Mathlib

/-!
Verification of the sij-manager Tenjam data-conversion and import scripts.

Shallow embedding of the Python scripts under scrutiny:
  * `convert_products.py`   — work-step normalizer with the dependency encoder
  * `convert_equipment.py`  — equipment/worker certification-matrix normalizer
  * `convert_production_history.py` — production-event normalizer (name maps)
  * `import_tenjam_data.py` — two-phase preview/confirm client and batch driver

Spreadsheet cells are modelled as `Option String`: `none` is a missing cell
(pandas NaN, `pd.isna`), `some s` a present cell holding the string rendering
of its value.  A raw spreadsheet row is a `List (Option String)` indexed
positionally, matching the scripts' `row[i]` accesses; out-of-range access
yields `none`, matching the scripts' explicit `if col_idx < len(row)` guard
(all other positional accesses in the scripts are over fixed-width DataFrame
rows).  Python string operations (`split`, `strip`, `upper`, `lower`, `join`,
substring search) are given structurally recursive models over `List Char` so
that concrete runs reduce inside the kernel.  Purely numeric output columns
that no verified property mentions (`station_count`, `hourly_cost`,
`external_id`, `time_seconds`, `units_produced`: the `int()` coercions and
constant zeros) are not carried in the output records, and the external
`pd.to_datetime(...).strftime` date rendering is taken as a parameter.
-/

namespace SijManager

/-- Python `s.split(sep)` for a one-character separator `sep`, on the
character list of `s`: every occurrence splits, empty pieces are kept, and
the empty string yields `[[]]` (one empty piece), exactly as in Python. -/
def splitChar (sep : Char) : List Char → List (List Char)
  | [] => [[]]
  | c :: rest =>
    match splitChar sep rest with
    | [] => if c = sep then [[], []] else [[c]]
    | h :: t => if c = sep then [] :: h :: t else (c :: h) :: t

/-- Python `s.split(",")` on strings. -/
def pySplitComma (s : String) : List String :=
  (splitChar ',' s.data).map String.mk

/-- Python `s.strip()`: drop whitespace from both ends. -/
def pyStrip (s : String) : String :=
  ⟨((s.data.dropWhile Char.isWhitespace).reverse.dropWhile Char.isWhitespace).reverse⟩

/-- Python `s.upper()` (the scripts only compare ASCII spellings). -/
def pyUpper (s : String) : String := ⟨s.data.map Char.toUpper⟩

/-- Python `s.lower()`. -/
def pyLower (s : String) : String := ⟨s.data.map Char.toLower⟩

/-- Python `",".join(l)`. -/
def pyJoinComma (l : List String) : String :=
  ⟨List.intercalate [','] (l.map String.data)⟩

/-- Split a character list at the first occurrence of the (non-empty)
separator `sep`: `some (before, after)` when `sep` occurs, `none` otherwise.
Models Python `s.split(sep, 1)` together with the `sep in s` test. -/
def splitFirst (sep : List Char) : List Char → Option (List Char × List Char)
  | [] => none
  | c :: rest =>
    if sep.isPrefixOf (c :: rest) then some ([], List.drop sep.length (c :: rest))
    else (splitFirst sep rest).map (fun p => (c :: p.1, p.2))

/-! ### `convert_products.py` -/

/-- `transform_dependencies` from `convert_products.py`.
`deps` is the raw predecessor cell, `dep_type` the relation-kind cell.
Mirrors the source: return `""` when the cell is NaN or the empty string;
otherwise split on `","`, strip each piece, and append `":" + dep_type.lower()`
when the relation cell is present and non-empty (Python string truthiness). -/
def transform_dependencies (deps dep_type : Option String) : String :=
  match deps with
  | none => ""
  | some d =>
    if d = "" then ""
    else
      let dep_list := (pySplitComma d).map pyStrip
      let type_suffix :=
        match dep_type with
        | some t => if t = "" then "" else ":" ++ pyLower t
        | none => ""
      pyJoinComma (dep_list.map (fun x => x ++ type_suffix))

/-- The `PRODUCTS` constant of `convert_products.py`. -/
structure ProductSpec where
  name : String
  version_name : String
  version_number : Nat
  is_default : String

def PRODUCTS : List ProductSpec :=
  [⟨"Tenjam Blue", "v1.0", 1, "Y"⟩, ⟨"Tenjam White", "v1.0", 1, "Y"⟩]

/-- One output row of `convert_products.py` (the columns the verified
properties mention; numeric `external_id`/`time_seconds` omitted). -/
structure ProductOutRow where
  product_name : String
  version_name : String
  version_number : Nat
  is_default : String
  step_code : String
  category : String
  component : String
  task_name : String
  equipment_code : String
  dependencies : String

/-- The body of the per-row loop of `convert_products.py` `main` for one
product: `row[0]` dependency cell, `row[1]` relation-kind cell, `row[2]`
step code.  The row is skipped only when the step-code cell is NaN
(`if pd.isna(step_code): continue` — an empty string is NOT skipped). -/
def processStepRow (p : ProductSpec) (row : List (Option String)) :
    Option ProductOutRow :=
  match (row[2]?).getD none with
  | none => none
  | some code =>
    some { product_name := p.name
           version_name := p.version_name
           version_number := p.version_number
           is_default := p.is_default
           step_code := code
           category := ((row[4]?).getD none).getD ""
           component := ((row[5]?).getD none).getD ""
           task_name := ((row[6]?).getD none).getD ""
           equipment_code := ((row[8]?).getD none).getD ""
           dependencies :=
             transform_dependencies ((row[0]?).getD none) ((row[1]?).getD none) }

/-- `convert_products.py` `main` over the sheet's data rows (rows 1–31 of the
"Work Steps" sheet): the outer loop runs over `PRODUCTS`, the inner loop over
the data rows, in order. -/
def convert_products (dataRows : List (List (Option String))) : List ProductOutRow :=
  PRODUCTS.flatMap (fun p => dataRows.filterMap (processStepRow p))

/-- Decode a serialized dependency list back to its predecessor codes: the
inverse reading of the documented `code:relation` comma-joined format
(`""` encodes no dependencies; each comma-piece's code is the part before
the first `":"`). -/
def depCodes (s : String) : List String :=
  if s = "" then []
  else (pySplitComma s).map (fun e => String.mk ((splitChar ':' e.data).headD []))

/-- Referential invariant: every predecessor code of every output row names a
step that exists in the same product version of the same output batch. -/
def DepsResolve (outs : List ProductOutRow) : Prop :=
  ∀ out ∈ outs, ∀ c ∈ depCodes out.dependencies,
    ∃ out' ∈ outs, out'.product_name = out.product_name ∧
      out'.version_name = out.version_name ∧ out'.step_code = c

instance (outs : List ProductOutRow) : Decidable (DepsResolve outs) := by
  unfold DepsResolve; infer_instance

/-! ### `convert_equipment.py` -/

/-- `WORKER_NAME_CLEAN` from `convert_equipment.py` as the total lookup
`dict.get(name, name)`. -/
def WORKER_NAME_CLEAN (n : String) : String :=
  if n = "Temp - Noe" then "Noe"
  else if n = "Temp - Fransisco" then "Fransisco"
  else n

/-- Worker-name discovery from the header slice `header_row[3:16]`: NaN
header cells are skipped, present names are cleaned, order preserved. -/
def workersOf (headerCells : List (Option String)) : List String :=
  headerCells.filterMap (fun c => c.map WORKER_NAME_CLEAN)

/-- The closed set of truthy certification spellings from
`convert_equipment.py`. -/
def truthySpellings : List String := ["Y", "YES", "1", "TRUE", "X"]

/-- Certification-cell parsing (the body of the certification loop of
`convert_equipment.py`): a present cell whose upper-casing is in the truthy
set yields `"Y"`, anything else — including a missing cell — yields `""`. -/
def parseCert (val : Option String) : String :=
  match val with
  | none => ""
  | some s => if pyUpper s ∈ truthySpellings then "Y" else ""

/-- The certification loop: worker `i` (0-based position in the discovered
`workers` list) is paired with the cell in column `3 + i` of the data row,
`None` when the row is shorter. -/
def certifications (workers : List String) (row : List (Option String)) :
    List String :=
  (List.range workers.length).map (fun i => parseCert ((row[3 + i]?).getD none))

/-- The `work_type_full` split of `convert_equipment.py`: a NaN cell yields
`("", "")`; a cell containing `" - "` splits once, the category is the
stripped first part and the work type the full string; otherwise both fields
are the full string.  Returns `(work_category, work_type)`. -/
def splitWorkType (wt : Option String) : String × String :=
  match wt with
  | none => ("", "")
  | some s =>
    match splitFirst " - ".data s.data with
    | some p => (pyStrip ⟨p.1⟩, s)
    | none => (s, s)

/-- One output row of `convert_equipment.py` (numeric `station_count` and
`hourly_cost` omitted — the latter is the constant 0 in the source).
`certs` is the positional certification list, paired with `workers`. -/
structure EquipOutRow where
  equipment_code : String
  work_category : String
  work_type : String
  certs : List String

/-- The body of the per-row loop of `convert_equipment.py` `main`:
`row[1]` is the equipment code, `row[2]` the work-type cell.  The row is
skipped when the code cell is NaN or the empty string. -/
def processEquipmentRow (workers : List String) (row : List (Option String)) :
    Option EquipOutRow :=
  match (row[1]?).getD none with
  | none => none
  | some code =>
    if code = "" then none
    else
      some { equipment_code := code
             work_category := (splitWorkType ((row[2]?).getD none)).1
             work_type := (splitWorkType ((row[2]?).getD none)).2
             certs := certifications workers row }

/-- The synthetic `_COST` row of `convert_equipment.py` (per-worker cost is
the constant `0`, rendered `"0"` in the CSV). -/
def cost_row (workers : List String) : EquipOutRow :=
  { equipment_code := "_COST"
    work_category := ""
    work_type := "Worker Cost Per Hour"
    certs := workers.map (fun _ => "0") }

/-- `convert_equipment.py` `main`: workers are discovered from columns 3–15
of the header row, the data rows (rows 1–29 of the sheet) are normalized in
order, and the output batch is the `_COST` row followed by the equipment
rows (`[cost_row] + equipment_rows`). -/
def convert_equipment (header_row : List (Option String))
    (dataRows : List (List (Option String))) : List EquipOutRow :=
  cost_row (workersOf ((header_row.drop 3).take 13)) ::
    dataRows.filterMap (processEquipmentRow (workersOf ((header_row.drop 3).take 13)))

/-! ### `convert_production_history.py` -/

/-- `WORKER_NAME_FIXES` from `convert_production_history.py` as the total
lookup `dict.get(name, name)`. -/
def WORKER_NAME_FIXES (n : String) : String :=
  if n = "Cindy" then "Cyndi"
  else if n = "Maricela" then "Maricella"
  else if n = "Fransico" then "Fransisco"
  else n

/-- `PRODUCT_NAME_MAP` from `convert_production_history.py` as the total
lookup `dict.get(name, name)`. -/
def PRODUCT_NAME_MAP (n : String) : String :=
  if n = "Tenjam - Blue" then "Tenjam Blue"
  else if n = "Tenjam - White" then "Tenjam White"
  else n

/-- `format_time` from `convert_production_history.py` on string cells:
NaN yields `""`; a string yields its first five characters (the source's
`time_val[:5] if len(time_val) >= 5 else time_val`, which is `s[:5]` in
both branches). -/
def formatTime (t : Option String) : String :=
  match t with
  | none => ""
  | some s => ⟨s.data.take 5⟩

/-- One named-column input row of the "Production Data" sheet. -/
structure HistoryInRow where
  product : Option String
  date : Option String
  name : Option String
  task_id : Option String
  start_time : Option String
  finish_time : Option String

/-- One output row of `convert_production_history.py` (numeric
`units_produced` omitted).  `product_name` stays optional because a NaN
product cell passes through the map unchanged. -/
structure HistoryOutRow where
  product_name : Option String
  due_date : String
  version_name : String
  step_code : String
  worker_name : String
  work_date : String
  start_time : String
  end_time : String

/-- The body of the per-row loop of `convert_production_history.py` `main`:
skipped when the Task ID or Name cell is NaN, then skipped when the Date
cell is NaN; otherwise product and worker names are canonicalized and the
row is emitted.  `dateFmt` stands for the external
`pd.to_datetime(...).strftime("%Y-%m-%d")` rendering. -/
def processHistoryRow (dateFmt : String → String) (r : HistoryInRow) :
    Option HistoryOutRow :=
  match r.task_id, r.name with
  | some step_code, some worker =>
    match r.date with
    | some d =>
      some { product_name := r.product.map PRODUCT_NAME_MAP
             due_date := "2026-01-16"
             version_name := "v1.0"
             step_code := step_code
             worker_name := WORKER_NAME_FIXES worker
             work_date := dateFmt d
             start_time := formatTime r.start_time
             end_time := formatTime r.finish_time }
    | none => none
  | _, _ => none

/-- `convert_production_history.py` `main`: first the two DataFrame filters
(`Name != "00-Prod Dev"`, `Product != "Tenjam"` — NaN cells compare unequal
and are kept, as in pandas), then the per-row loop. -/
def convert_production_history (dateFmt : String → String)
    (rows : List HistoryInRow) : List HistoryOutRow :=
  ((rows.filter (fun r => r.name ≠ some "00-Prod Dev")).filter
      (fun r => r.product ≠ some "Tenjam")).filterMap (processHistoryRow dateFmt)

/-! ### `import_tenjam_data.py` -/

/-- The JSON body of a preview response, as read by `import_csv`:
HTTP status, `errors`, `warnings`, and the optional `importToken`. -/
structure PreviewResponse where
  status : Nat
  errors : List String
  warnings : List String
  importToken : Option String

/-- The confirm response as read by `import_csv` (only the status matters). -/
structure ConfirmResponse where
  status : Nat

/-- Observable outcome of one `import_csv` call: the returned boolean and
how many confirm requests were sent on the wire. -/
structure ImportRun where
  success : Bool
  confirmRequests : Nat

/-- `import_csv` from `import_tenjam_data.py`, as a function of the preview
response and the (at most one) confirm response.  Mirrors the source's
control flow: non-200 preview → failure; non-empty `errors` → failure;
missing or falsy (empty) `importToken` → failure — all without sending a
confirm request; otherwise exactly one confirm request is sent and the call
succeeds iff it returns 200. -/
def import_csv (preview : PreviewResponse) (confirm : ConfirmResponse) : ImportRun :=
  if preview.status ≠ 200 then ⟨false, 0⟩
  else if preview.errors ≠ [] then ⟨false, 0⟩
  else
    match preview.importToken with
    | none => ⟨false, 0⟩
    | some t =>
      if t = "" then ⟨false, 0⟩
      else if confirm.status ≠ 200 then ⟨false, 1⟩
      else ⟨true, 1⟩

/-- The `imports` list of `import_tenjam_data.py` `main`: the configured
(entity type, CSV path) order. -/
def imports : List (String × String) :=
  [("equipment-matrix", "apps/server/sample-data/tenjam/tenjam-worker-equipment.csv"),
   ("products", "apps/server/sample-data/tenjam/tenjam-products.csv"),
   ("orders", "apps/server/sample-data/tenjam/tenjam-orders.csv"),
   ("production-history", "apps/server/sample-data/tenjam/tenjam-production-history.csv")]

/-- The driver loop of `main`: `outcome e p` is the boolean result of
`import_csv` for endpoint `e` and file `p`.  Returns
`(success_count, attempted)` — the reported count of fully committed entity
types and the list of endpoints actually attempted, in order.  A success
increments the count and continues; a failure stops the loop (`break`). -/
def runImports (outcome : String → String → Bool) :
    List (String × String) → Nat × List String
  | [] => (0, [])
  | (e, p) :: rest =>
    if outcome e p then
      let r := runImports outcome rest
      (r.1 + 1, e :: r.2)
    else (0, [e])

/-- `main`'s return value (and hence the process success indication,
`sys.exit(0 if success else 1)`): `success_count == len(imports)`. -/
def main_success (outcome : String → String → Bool) : Bool :=
  (runImports outcome imports).1 == imports.length

end SijManager

namespace SijManager

example : transform_dependencies (some "CFA1, CTA1") (some "Finish") =
    "CFA1:finish,CTA1:finish" := by decide

example : parseCert (some "true") = "Y" := by decide

example : splitWorkType (some "Cutting - Team Lead") = ("Cutting", "Cutting - Team Lead") := by
  decide

/-- C3: the dependency encoder maps a comma-separated predecessor cell plus a
single relation-kind cell to `code:relation` joined by commas with the
relation lower-cased and applied to every code — in particular
`transform_dependencies("CFA1, CTA1", "Finish") = "CFA1:finish,CTA1:finish"` —
and, for every relation value, an empty or missing predecessor cell yields
`""` (an empty encoding, not an error). -/
theorem C3_transform_dependencies_encoding :
    transform_dependencies (some "CFA1, CTA1") (some "Finish") = "CFA1:finish,CTA1:finish"
    ∧ ∀ rel : Option String,
        transform_dependencies none rel = "" ∧ transform_dependencies (some "") rel = "" := by
  refine ⟨by decide, fun rel => ⟨rfl, rfl⟩⟩

/-- C4: when the relation-kind cell is missing or empty but the predecessor
cell is non-empty, the encoder still emits every stated predecessor code, in
order, each followed by the empty relation suffix — no dependency is
dropped. -/
theorem C4_missing_relation_keeps_codes (d : String) (rel : Option String)
    (hd : d ≠ "") (hrel : rel = none ∨ rel = some "") :
    transform_dependencies (some d) rel =
      pyJoinComma ((pySplitComma d).map (fun c => pyStrip c ++ "")) := by
  rcases hrel with h | h <;> subst h <;>
    simp only [transform_dependencies, hd, if_false, List.map_map] <;>
    rfl

/-- Witness for C4 at the concrete predecessor cell `"CFA1, CTA1"` with a
missing relation cell. -/
theorem C4_missing_relation_keeps_codes_witness :
    transform_dependencies (some "CFA1, CTA1") none =
      pyJoinComma ((pySplitComma "CFA1, CTA1").map (fun c => pyStrip c ++ "")) :=
  C4_missing_relation_keeps_codes "CFA1, CTA1" none (by decide) (Or.inl rfl)

/-- C5: certification-cell parsing maps exactly the spellings "Y", "YES",
"1", "TRUE", "X" — compared case-insensitively, i.e. after upper-casing —
to the certified mark "Y", and every other value, including empty and
missing cells, to "". -/
theorem C5_truthy_cell_parsing :
    (∀ s : String, parseCert (some s) = "Y" ↔ pyUpper s ∈ truthySpellings)
    ∧ (∀ s : String, pyUpper s ∉ truthySpellings → parseCert (some s) = "")
    ∧ parseCert none = ""
    ∧ parseCert (some "") = ""
    ∧ parseCert (some "y") = "Y" ∧ parseCert (some "Yes") = "Y"
    ∧ parseCert (some "1") = "Y" ∧ parseCert (some "tRuE") = "Y"
    ∧ parseCert (some "x") = "Y" ∧ parseCert (some "N") = ""
    ∧ parseCert (some "yes ") = "" := by
  refine ⟨fun s => ?_, fun s h => ?_, rfl, by decide, by decide, by decide,
    by decide, by decide, by decide, by decide, by decide⟩
  · unfold parseCert
    split <;> simp_all
  · simp [parseCert, h]

/-- Witness for C5 at the concrete cell value `"no"`. -/
theorem C5_truthy_cell_parsing_witness : parseCert (some "no") = "" :=
  C5_truthy_cell_parsing.2.1 "no" (by decide)

/-- C8: identity canonicalization of worker and product names is a pure
total lookup: a name not present in the mapping table passes through
unchanged, and each of the three maps is idempotent — canonicalizing an
already-canonical name returns it unchanged. -/
theorem C8_canonicalization_idempotent_total :
    (∀ s, WORKER_NAME_FIXES (WORKER_NAME_FIXES s) = WORKER_NAME_FIXES s)
    ∧ (∀ s, WORKER_NAME_CLEAN (WORKER_NAME_CLEAN s) = WORKER_NAME_CLEAN s)
    ∧ (∀ s, PRODUCT_NAME_MAP (PRODUCT_NAME_MAP s) = PRODUCT_NAME_MAP s)
    ∧ (∀ s, s ≠ "Cindy" → s ≠ "Maricela" → s ≠ "Fransico" → WORKER_NAME_FIXES s = s)
    ∧ (∀ s, s ≠ "Temp - Noe" → s ≠ "Temp - Fransisco" → WORKER_NAME_CLEAN s = s)
    ∧ (∀ s, s ≠ "Tenjam - Blue" → s ≠ "Tenjam - White" → PRODUCT_NAME_MAP s = s) := by
  refine ⟨fun s => ?_, fun s => ?_, fun s => ?_,
    fun s h1 h2 h3 => ?_, fun s h1 h2 => ?_, fun s h1 h2 => ?_⟩ <;>
    simp only [WORKER_NAME_FIXES, WORKER_NAME_CLEAN, PRODUCT_NAME_MAP] <;>
    split_ifs <;> simp_all

/-- Witness for C8 at the unmapped name `"Bob"` (and idempotence at the
already-canonical `"Cyndi" = WORKER_NAME_FIXES "Cindy"`). -/
theorem C8_canonicalization_witness :
    WORKER_NAME_FIXES "Bob" = "Bob"
    ∧ WORKER_NAME_FIXES (WORKER_NAME_FIXES "Cindy") = WORKER_NAME_FIXES "Cindy" :=
  ⟨C8_canonicalization_idempotent_total.2.2.2.1 "Bob" (by decide) (by decide) (by decide),
   C8_canonicalization_idempotent_total.1 "Cindy"⟩

/-- C1: per `import_csv` call there is at most one confirm request; a confirm
request is sent only when the preview response had HTTP status 200, an empty
`errors` list and a present, non-empty `importToken`; and whenever the
preview's `errors` list is non-empty, `import_csv` returns failure having
sent no confirm request. -/
theorem C1_import_csv_confirm_gating (p : PreviewResponse) (c : ConfirmResponse) :
    (import_csv p c).confirmRequests ≤ 1
    ∧ ((import_csv p c).confirmRequests = 1 →
        p.status = 200 ∧ p.errors = [] ∧ ∃ t, p.importToken = some t ∧ t ≠ "")
    ∧ (p.errors ≠ [] →
        (import_csv p c).success = false ∧ (import_csv p c).confirmRequests = 0) := by
  obtain ⟨ps, pe, pw, pt⟩ := p
  obtain ⟨cs⟩ := c
  cases pt <;> simp only [import_csv] <;> split_ifs <;> simp_all

/-- Witness for C1: a preview response with one blocking error (even with
status 200 and a token) yields failure and zero confirm requests. -/
theorem C1_import_csv_confirm_gating_witness :
    (import_csv ⟨200, ["row 3: unknown step_code"], [], some "tok"⟩ ⟨200⟩).success = false
    ∧ (import_csv ⟨200, ["row 3: unknown step_code"], [], some "tok"⟩ ⟨200⟩).confirmRequests
        = 0 :=
  (C1_import_csv_confirm_gating ⟨200, ["row 3: unknown step_code"], [], some "tok"⟩
    ⟨200⟩).2.2 (by decide)

/-- C2: the batch driver runs the four entity types strictly in the
configured order (the attempted endpoints are always an initial segment of
the configured endpoint order), terminates with a success indication iff
every entity type committed, and — when equipment-matrix and products
succeed but orders fails — reports 2 committed, attempts exactly the first
three endpoints in order, never attempts production-history, and signals
failure. -/
theorem C2_batch_driver (outcome : String → String → Bool) :
    (∃ k, (runImports outcome imports).2 = (imports.map Prod.fst).take k)
    ∧ (main_success outcome = true ↔ ∀ ep ∈ imports, outcome ep.1 ep.2 = true)
    ∧ (outcome "equipment-matrix"
          "apps/server/sample-data/tenjam/tenjam-worker-equipment.csv" = true →
       outcome "products" "apps/server/sample-data/tenjam/tenjam-products.csv" = true →
       outcome "orders" "apps/server/sample-data/tenjam/tenjam-orders.csv" = false →
       runImports outcome imports = (2, ["equipment-matrix", "products", "orders"])
       ∧ main_success outcome = false) := by
  cases h1 : outcome "equipment-matrix"
      "apps/server/sample-data/tenjam/tenjam-worker-equipment.csv" <;>
  cases h2 : outcome "products" "apps/server/sample-data/tenjam/tenjam-products.csv" <;>
  cases h3 : outcome "orders" "apps/server/sample-data/tenjam/tenjam-orders.csv" <;>
  cases h4 : outcome "production-history"
      "apps/server/sample-data/tenjam/tenjam-production-history.csv" <;>
  refine ⟨?_, ?_, ?_⟩ <;>
  simp_all [imports, runImports, main_success] <;>
  first
    | exact ⟨1, rfl⟩
    | exact ⟨2, rfl⟩
    | exact ⟨3, rfl⟩
    | exact ⟨4, rfl⟩
    | exact ⟨4, by decide⟩

/-- Witness for C2: with an outcome function under which equipment-matrix
and products commit but orders fails, the driver reports 2 committed,
attempts only the first three endpoints, and signals failure. -/
theorem C2_batch_driver_witness :
    runImports (fun e _ => e == "equipment-matrix" || e == "products") imports =
      (2, ["equipment-matrix", "products", "orders"])
    ∧ main_success (fun e _ => e == "equipment-matrix" || e == "products") = false :=
  (C2_batch_driver (fun e _ => e == "equipment-matrix" || e == "products")).2.2
    (by decide) (by decide) (by decide)

/-- An emitted equipment row carries exactly the (non-empty) code of its
source row's `row[1]` cell. -/
theorem processEquipmentRow_code {workers : List String} {row : List (Option String)}
    {out : EquipOutRow} (h : processEquipmentRow workers row = some out) :
    (row[1]?).getD none = some out.equipment_code := by
  unfold processEquipmentRow at h
  cases hc : (row[1]?).getD none with
  | none => rw [hc] at h; cases h
  | some code =>
    rw [hc] at h
    dsimp only at h
    split_ifs at h with he <;> cases h <;> rfl

/-- C6 counterexample: an input sheet containing a data row whose
equipment-code cell is the reserved `"_COST"` yields a normalized batch in
which the code `"_COST"` occurs twice, so the sentinel cost row is not
present exactly once "regardless of the input rows' content". -/
theorem C6_cost_row_counterexample :
    (convert_equipment [] [[none, some "_COST"]]).countP
      (fun r => r.equipment_code == "_COST") = 2 := by decide

/-- C6 (amended): the normalized equipment batch contains the sentinel cost
row (`equipment_code = "_COST"`) exactly once for every input whose data
rows do not themselves use the reserved code `"_COST"` — in particular
regardless of the order and the remaining content of the input rows, and
even when all costs are zero/unknown (the source always writes cost 0). -/
theorem C6_cost_row_unique_amended (header_row : List (Option String))
    (dataRows : List (List (Option String)))
    (h : ∀ row ∈ dataRows, (row[1]?).getD none ≠ some "_COST") :
    (convert_equipment header_row dataRows).countP
      (fun r => r.equipment_code == "_COST") = 1 := by
  unfold convert_equipment
  rw [List.countP_cons]
  have h0 : (dataRows.filterMap
      (processEquipmentRow (workersOf ((header_row.drop 3).take 13)))).countP
      (fun r => r.equipment_code == "_COST") = 0 := by
    refine List.countP_eq_zero.mpr ?_
    intro out hout
    obtain ⟨row, hrow, hpr⟩ := List.mem_filterMap.mp hout
    have hcode := processEquipmentRow_code hpr
    have hne := h row hrow
    simp only [beq_iff_eq]
    intro heq
    exact hne (heq ▸ hcode)
  rw [h0]
  simp [cost_row]

/-- Witness for C6 (amended) on a one-row input sheet that does not use the
reserved code. -/
theorem C6_cost_row_unique_amended_witness :
    (convert_equipment [none, none, none, some "Alice"]
        [[some "1", some "CUT1", some "Cutting - Saw", some "Y"]]).countP
      (fun r => r.equipment_code == "_COST") = 1 :=
  C6_cost_row_unique_amended [none, none, none, some "Alice"]
    [[some "1", some "CUT1", some "Cutting - Saw", some "Y"]] (by decide)

/-- C7 counterexample: in the products normalizer a data row whose step-code
cell is present but empty (`""`) is NOT skipped — it produces an output row
(one per product) with an empty `step_code` — refuting "in every normalizer,
a row whose entity-key cell is empty (missing, or the empty string) produces
no output row". -/
theorem C7_empty_key_counterexample :
    (convert_products [[none, none, some ""]]).map (fun r => r.step_code) = ["", ""] := by
  decide

/-- C7 (amended): rows with empty entity keys are skipped silently, but the
two normalizers differ on what "empty" means: the equipment normalizer skips
a row whose code cell is missing OR the empty string, while the products
normalizer (and the production-history normalizer, whose key cells are Task
ID and Name) skips only missing (NaN) cells.  In each case the skipped row
contributes no output row and leaves the output of the remaining rows
unchanged. -/
theorem C7_row_skip_amended :
    (∀ (workers : List String) (row : List (Option String)),
      ((row[1]?).getD none = none ∨ (row[1]?).getD none = some "") →
      processEquipmentRow workers row = none)
    ∧ (∀ (p : ProductSpec) (row : List (Option String)),
        (row[2]?).getD none = none → processStepRow p row = none)
    ∧ (∀ (dateFmt : String → String) (r : HistoryInRow),
        r.task_id = none ∨ r.name = none → processHistoryRow dateFmt r = none)
    ∧ (∀ (header_row : List (Option String)) (pre : List (List (Option String)))
        (bad : List (Option String)) (post : List (List (Option String))),
        ((bad[1]?).getD none = none ∨ (bad[1]?).getD none = some "") →
        convert_equipment header_row (pre ++ bad :: post) =
          convert_equipment header_row (pre ++ post))
    ∧ (∀ (pre : List (List (Option String))) (bad : List (Option String))
        (post : List (List (Option String))),
        (bad[2]?).getD none = none →
        convert_products (pre ++ bad :: post) = convert_products (pre ++ post)) := by
  have hEq : ∀ (workers : List String) (row : List (Option String)),
      ((row[1]?).getD none = none ∨ (row[1]?).getD none = some "") →
      processEquipmentRow workers row = none := by
    intro workers row h
    unfold processEquipmentRow
    rcases h with h | h <;> rw [h] <;> simp
  have hPr : ∀ (p : ProductSpec) (row : List (Option String)),
      (row[2]?).getD none = none → processStepRow p row = none := by
    intro p row h
    unfold processStepRow
    rw [h]
  refine ⟨hEq, hPr, ?_, ?_, ?_⟩
  · intro dateFmt r h
    unfold processHistoryRow
    rcases h with h | h <;> rw [h] <;> cases htask : r.task_id <;> rfl
  · intro header_row pre bad post h
    unfold convert_equipment
    rw [List.filterMap_append, List.filterMap_append, List.filterMap_cons,
      hEq _ bad h]
  · intro pre bad post h
    unfold convert_products
    have : (fun p : ProductSpec => (pre ++ bad :: post).filterMap (processStepRow p)) =
        (fun p : ProductSpec => (pre ++ post).filterMap (processStepRow p)) := by
      funext p
      rw [List.filterMap_append, List.filterMap_append, List.filterMap_cons,
        hPr p bad h]
    rw [this]

/-- Witness for C7 (amended): a missing equipment code, an empty equipment
code, and a missing step code are each skipped, and an empty-key equipment
row in the middle of a batch leaves the batch output unchanged. -/
theorem C7_row_skip_amended_witness :
    processEquipmentRow [] [none, none] = none
    ∧ processEquipmentRow [] [none, some ""] = none
    ∧ processStepRow ⟨"Tenjam Blue", "v1.0", 1, "Y"⟩ [] = none
    ∧ convert_equipment [] ([[some "1", some "CUT1"]] ++ [none, some ""] :: []) =
        convert_equipment [] ([[some "1", some "CUT1"]] ++ []) :=
  ⟨C7_row_skip_amended.1 [] [none, none] (Or.inl rfl),
   C7_row_skip_amended.1 [] [none, some ""] (Or.inr rfl),
   C7_row_skip_amended.2.1 ⟨"Tenjam Blue", "v1.0", 1, "Y"⟩ [] rfl,
   C7_row_skip_amended.2.2.2.1 [] [[some "1", some "CUT1"]] [none, some ""] []
     (Or.inr rfl)⟩

/-- Membership in the products converter's output: one output row per
(product, non-skipped data row) pair. -/
theorem mem_convert_products {out : ProductOutRow} {rows : List (List (Option String))} :
    out ∈ convert_products rows ↔
      ∃ p ∈ PRODUCTS, ∃ row ∈ rows, processStepRow p row = some out := by
  simp [convert_products, List.mem_flatMap, List.mem_filterMap]

/-- The fields an emitted product row inherits from its source row and
product. -/
theorem processStepRow_some {p : ProductSpec} {row : List (Option String)}
    {out : ProductOutRow} (h : processStepRow p row = some out) :
    (row[2]?).getD none = some out.step_code
    ∧ out.dependencies =
        transform_dependencies ((row[0]?).getD none) ((row[1]?).getD none)
    ∧ out.product_name = p.name ∧ out.version_name = p.version_name := by
  unfold processStepRow at h
  cases hc : (row[2]?).getD none with
  | none => rw [hc] at h; cases h
  | some code => rw [hc] at h; cases h; exact ⟨rfl, rfl, rfl, rfl⟩

/-- Every non-skipped source row yields an output row for every product. -/
theorem processStepRow_of_key {p : ProductSpec} {row : List (Option String)}
    {code : String} (h : (row[2]?).getD none = some code) :
    ∃ out, processStepRow p row = some out ∧ out.step_code = code
      ∧ out.product_name = p.name ∧ out.version_name = p.version_name := by
  unfold processStepRow
  rw [h]
  exact ⟨_, rfl, rfl, rfl, rfl⟩

/-- C9 counterexample: on an input sheet whose single step `"A"` declares a
dependency on the nonexistent step `"B"`, the products converter emits a row
set in which `A`'s predecessor set does not resolve within the product
version — the converter performs no referential check, so the claimed
invariant does not hold for every produced row set. -/
theorem C9_dangling_dependency_counterexample :
    ¬ DepsResolve (convert_products [[some "B", none, some "A"]]) := by decide

/-- C9 (amended): IF the input sheet is referentially closed (every
predecessor code named by a non-skipped row is the step code of some row of
the sheet) and admits a topological ranking (every dependency's code ranks
strictly below the declaring row's step code — the standard certificate that
the dependency graph is acyclic), THEN the produced row set satisfies the
claimed invariant: every predecessor code of every output row resolves to a
step of the same product version, and the dependency graph restricted to
each product version strictly decreases the ranking along edges, hence is a
DAG.  (Each product version receives exactly the sheet's steps, which is
what makes per-version resolution follow from per-sheet resolution.) -/
theorem C9_deps_resolve_amended (dataRows : List (List (Option String)))
    (rank : String → Nat)
    (hres : ∀ row ∈ dataRows, (row[2]?).getD none ≠ none →
      ∀ c ∈ depCodes (transform_dependencies ((row[0]?).getD none) ((row[1]?).getD none)),
        ∃ row' ∈ dataRows, (row'[2]?).getD none = some c)
    (hrank : ∀ row ∈ dataRows, (row[2]?).getD none ≠ none →
      ∀ c ∈ depCodes (transform_dependencies ((row[0]?).getD none) ((row[1]?).getD none)),
        rank c < rank (((row[2]?).getD none).getD "")) :
    DepsResolve (convert_products dataRows)
    ∧ ∀ out ∈ convert_products dataRows, ∀ out' ∈ convert_products dataRows,
        out.product_name = out'.product_name → out.version_name = out'.version_name →
        out.step_code ∈ depCodes out'.dependencies →
        rank out.step_code < rank out'.step_code := by
  constructor
  · intro out hout c hc
    obtain ⟨p, hp, row, hrow, hpr⟩ := mem_convert_products.mp hout
    obtain ⟨hkey, hdeps, hpn, hvn⟩ := processStepRow_some hpr
    rw [hdeps] at hc
    obtain ⟨row', hrow', hkey'⟩ := hres row hrow (by rw [hkey]; simp) c hc
    obtain ⟨out', hout', hsc, hpn', hvn'⟩ := processStepRow_of_key (p := p) hkey'
    exact ⟨out', mem_convert_products.mpr ⟨p, hp, row', hrow', hout'⟩,
      by rw [hpn', hpn], by rw [hvn', hvn], hsc⟩
  · intro out _ out' hout' _ _ hmem
    obtain ⟨p, hp, row', hrow', hpr'⟩ := mem_convert_products.mp hout'
    obtain ⟨hkey', hdeps', _, _⟩ := processStepRow_some hpr'
    rw [hdeps'] at hmem
    have h2 := hrank row' hrow' (by rw [hkey']; simp) out.step_code hmem
    rw [hkey'] at h2
    simpa using h2

/-- Witness for C9 (amended) on a two-step sheet (`B` depends on `A` with
relation `Finish`) with the ranking `A ↦ 0, B ↦ 1`. -/
theorem C9_deps_resolve_amended_witness :
    DepsResolve (convert_products
      [[some "A", some "Finish", some "B"], [none, none, some "A"]])
    ∧ ∀ out ∈ convert_products
          [[some "A", some "Finish", some "B"], [none, none, some "A"]],
        ∀ out' ∈ convert_products
          [[some "A", some "Finish", some "B"], [none, none, some "A"]],
        out.product_name = out'.product_name → out.version_name = out'.version_name →
        out.step_code ∈ depCodes out'.dependencies →
        (fun s => if s = "B" then 1 else 0) out.step_code <
          (fun s => if s = "B" then 1 else 0) out'.step_code :=
  C9_deps_resolve_amended
    [[some "A", some "Finish", some "B"], [none, none, some "A"]]
    (fun s => if s = "B" then 1 else 0) (by decide) (by decide)

theorem workersOf_append (l1 l2 : List (Option String)) :
    workersOf (l1 ++ l2) = workersOf l1 ++ workersOf l2 :=
  List.filterMap_append l1 l2 _

theorem workersOf_cons_some (a : String) (l : List (Option String)) :
    workersOf (some a :: l) = WORKER_NAME_CLEAN a :: workersOf l := rfl

/-- The number of discovered workers is the number of non-empty header
cells. -/
theorem length_workersOf (l : List (Option String)) :
    (workersOf l).length = l.countP (fun c => c.isSome) := by
  induction l with
  | nil => rfl
  | cons c t ih =>
    cases c with
    | none => simpa [workersOf, List.filterMap_cons, List.countP_cons] using ih
    | some a => simpa [workersOf, List.filterMap_cons, List.countP_cons] using ih

/-- C10: worker-to-flag pairing in the equipment normalizer is positional
over the filtered header.  If the header slice (columns 3–15) has a worker
name at offset `j`, that worker lands at position
`i = |workersOf (first j header cells)|` of the discovered worker list —
i.e. it is the `i`-th non-empty header cell scanning left to right — and in
every data row its certification flag is the parse of the cell in column
`3 + i`; the flag column `3 + i` coincides with the column `3 + j` actually
headed by the worker's name exactly when no empty header cell occurs to the
worker's left within the slice. -/
theorem C10_worker_flag_pairing (headerCells row : List (Option String))
    (j : Nat) (name : String) (hj : headerCells[j]? = some (some name)) :
    (workersOf headerCells)[(workersOf (headerCells.take j)).length]? =
        some (WORKER_NAME_CLEAN name)
    ∧ (certifications (workersOf headerCells)
        row)[(workersOf (headerCells.take j)).length]? =
        some (parseCert
          ((row[3 + (workersOf (headerCells.take j)).length]?).getD none))
    ∧ (3 + (workersOf (headerCells.take j)).length = 3 + j ↔
        ∀ c ∈ headerCells.take j, c ≠ none) := by
  obtain ⟨hjlt, hget⟩ := List.getElem?_eq_some.mp hj
  have hsplit : headerCells = headerCells.take j ++ some name :: headerCells.drop (j + 1) := by
    conv_lhs => rw [← List.take_append_drop j headerCells]
    rw [List.drop_eq_getElem_cons hjlt, hget]
  have hw : workersOf headerCells =
      workersOf (headerCells.take j) ++
        WORKER_NAME_CLEAN name :: workersOf (headerCells.drop (j + 1)) := by
    conv_lhs => rw [hsplit]
    rw [workersOf_append, workersOf_cons_some]
  have h1 : (workersOf headerCells)[(workersOf (headerCells.take j)).length]? =
      some (WORKER_NAME_CLEAN name) := by
    rw [hw, List.getElem?_append_right (le_refl _)]
    simp
  refine ⟨h1, ?_, ?_⟩
  · have hilt : (workersOf (headerCells.take j)).length <
        (workersOf headerCells).length := by
      rw [hw, List.length_append]
      simp
    unfold certifications
    rw [List.getElem?_map, List.getElem?_range hilt]
    rfl
  · have hlen1 := length_workersOf (headerCells.take j)
    have hlen2 : (headerCells.take j).length = j := by
      rw [List.length_take]
      omega
    have hle := List.countP_le_length (l := headerCells.take j)
        (p := fun c : Option String => c.isSome)
    constructor
    · intro h3
      have hcp : (headerCells.take j).countP (fun c => c.isSome) =
          (headerCells.take j).length := by omega
      have hall := List.countP_eq_length.mp hcp
      intro c hc hnone
      have := hall c hc
      rw [hnone] at this
      cases this
    · intro hall
      have hcp : (headerCells.take j).countP (fun c => c.isSome) =
          (headerCells.take j).length := by
        refine List.countP_eq_length.mpr ?_
        intro c hc
        cases c with
        | none => exact absurd rfl (hall none hc)
        | some a => rfl
      omega

/-- Witness for C10: header slice `[“Temp - Noe”, NaN, “Maricella”]` — the
worker at header offset 2 sits at position 1 of the discovered list, its
flag is read from column 4 rather than the column 5 its name heads, and the
offset equality fails precisely because an empty header cell lies to its
left. -/
theorem C10_worker_flag_pairing_witness :
    (workersOf [some "Temp - Noe", none, some "Maricella"])[
        (workersOf (([some "Temp - Noe", none, some "Maricella"] :
          List (Option String)).take 2)).length]? =
      some (WORKER_NAME_CLEAN "Maricella")
    ∧ (certifications (workersOf [some "Temp - Noe", none, some "Maricella"])
        [none, none, none, some "Y", some "X"])[
        (workersOf (([some "Temp - Noe", none, some "Maricella"] :
          List (Option String)).take 2)).length]? =
      some (parseCert ((([none, none, none, some "Y", some "X"] :
          List (Option String))[3 + (workersOf (([some "Temp - Noe", none,
            some "Maricella"] : List (Option String)).take 2)).length]?).getD none))
    ∧ (3 + (workersOf (([some "Temp - Noe", none, some "Maricella"] :
          List (Option String)).take 2)).length = 3 + 2 ↔
        ∀ c ∈ ([some "Temp - Noe", none, some "Maricella"] :
          List (Option String)).take 2, c ≠ none) :=
  C10_worker_flag_pairing [some "Temp - Noe", none, some "Maricella"]
    [none, none, none, some "Y", some "X"] 2 "Maricella" rfl

end SijManager
